import Mathlib

/-!
Shallow embedding of ChartDrawer.py (chart-of-nuclides SVG generator).
The data model, the decay-mode resolver, the grid loader / canvas sizing,
the magic-number aggregation and the axis-numbering scans are translated
directly from the source; theorems below settle the specification claims.
-/

namespace ChartDrawer

/-- One decay-mode entry of an isotope record: mode code (lower-cased) and the
branching-value string, as parsed from the XML (`decay_modes[i]['mode']` and
`decay_modes[i]['value']`). -/
structure DecayMode where
  mode : String
  value : String
deriving DecidableEq

/-- Half-life descriptor of an isotope record. -/
structure HalfLife where
  value : String
  unit : String
  relation : String
  extrapolated : String
deriving DecidableEq

/-- Isotope record (the fields of the Nuclide object that ChartDrawer.py reads). -/
structure Nuclide where
  Z : Int
  A : Int
  element : String
  decay_modes : List DecayMode
  half_life : HalfLife
deriving DecidableEq

/-- Neutron number N = A - Z. -/
def Nuclide.N (n : Nuclide) : Int := n.A - n.Z

/-- The COLORS dictionary (ChartDrawer.py lines 67-81), as a total function on
mode codes; keys outside the dictionary (which the drawing code never looks up)
map to the empty string. -/
def COLORS (mode : String) : String :=
  if mode = "is" then "#000000"
  else if mode = "b-" then "#62aeff"
  else if mode = "2b-" then "#62aeff"
  else if mode = "b+" then "#ff7e75"
  else if mode = "ec" then "#ff7e75"
  else if mode = "2ec" then "#ff7e75"
  else if mode = "a" then "#fffe49"
  else if mode = "sf" then "#5cbc57"
  else if mode = "p" then "#ffa425"
  else if mode = "2p" then "#ffa425"
  else if mode = "n" then "#9fd7ff"
  else if mode = "2n" then "#9fd7ff"
  else if mode = "it" then "#ffffff"
  else if mode = "cluster" then "#a564cc"
  else if mode = "?" then "#cccccc"
  else ""

def FONT_COLOR_DARK : String := "#000000"

def FONT_COLOR_BRIGHT : String := "#aaaaaa"

def SIZE_SHAPE : Int := 30

def SIZE_GAP : Int := 2

def SIZE_FIELD : Int := SIZE_SHAPE + SIZE_GAP

def SIZE_FONT : Int := 7

def SIZE_FONT_HL : Int := 5

def MAGIC_NUMBERS : List Int := [2, 8, 20, 28, 50, 82, 126]

/-- Accepted basic decay modes (ChartDrawer.py lines 282-284). -/
def basic_decay_modes : List String :=
  ["is", "a", "b-", "b+", "ec", "p", "2p", "sf", "n", "2n", "2ec", "2b-"]

def isDigitCh (c : Char) : Bool := '0' ≤ c && c ≤ '9'

def isLowerCh (c : Char) : Bool := 'a' ≤ c && c ≤ 'z'

def isSpaceCh (c : Char) : Bool := c = ' ' || c = '\t' || c = '\n' || c = '\r'

/-- Helper for the cluster regular expression: true when some position of the
character list starts two digits followed by one or more lowercase letters
running to the end of the string. -/
def clusterSearch : List Char → Bool
  | c1 :: c2 :: rest =>
      (isDigitCh c1 && isDigitCh c2 && !rest.isEmpty && rest.all isLowerCh)
        || clusterSearch (c2 :: rest)
  | _ => false

/-- The cluster-emission test of ChartDrawer.py line 289: a search for the
pattern "two digits followed by one or more lowercase letters at the end of the
string" anywhere in the mode code. -/
def cluster_match (s : String) : Bool := clusterSearch s.data

/-- Python str.strip of the approximate marker character: removes leading and
trailing occurrences of the hash character. -/
def stripHash (s : String) : String :=
  let l := s.data.dropWhile (fun c => c = '#')
  String.mk ((l.reverse.dropWhile (fun c => c = '#')).reverse)

/-- Helper: does the pattern occur as a contiguous sublist? -/
def sublistCheck (pat : List Char) : List Char → Bool
  | [] => pat.isEmpty
  | c :: rest => List.isPrefixOf pat (c :: rest) || sublistCheck pat rest

/-- Python substring test used for the particle-unstable check
(`value.find('unstable') >= 0`, line 316). -/
def containsSub (s pat : String) : Bool := sublistCheck pat.data s.data

def digitsToNat (cs : List Char) : Nat :=
  cs.foldl (fun acc c => 10 * acc + (c.toNat - '0'.toNat)) 0

def splitDigits (cs : List Char) : List Char × List Char :=
  (cs.takeWhile (fun c => isDigitCh c), cs.dropWhile (fun c => isDigitCh c))

def parseSign : List Char → (Bool × List Char)
  | '+' :: rest => (false, rest)
  | '-' :: rest => (true, rest)
  | rest => (false, rest)

/-- Mantissa part of a Python float literal: digits, optional point, digits
(at least one digit overall). The value is returned as an exact unnormalized
decimal fraction: digit value of the concatenated digits over ten to the
number of fraction digits, together with the rest of the input. -/
def parseUnsigned (cs : List Char) : Option ((Nat × Nat) × List Char) :=
  let ip := (splitDigits cs).1
  let rest1 := (splitDigits cs).2
  match rest1 with
  | '.' :: rest2 =>
      let fp := (splitDigits rest2).1
      let rest3 := (splitDigits rest2).2
      if ip.isEmpty && fp.isEmpty then none
      else some ((digitsToNat (ip ++ fp), fp.length), rest3)
  | _ =>
      if ip.isEmpty then none
      else some ((digitsToNat ip, 0), rest1)

/-- Optional exponent part of a Python float literal. -/
def parseExpPart : List Char → Option (Int × List Char)
  | c :: rest =>
    if c = 'e' ∨ c = 'E' then
      let neg := (parseSign rest).1
      let rest2 := (parseSign rest).2
      let ds := (splitDigits rest2).1
      let rest3 := (splitDigits rest2).2
      if ds.isEmpty then none
      else some ((if neg then -(digitsToNat ds : Int) else (digitsToNat ds : Int)), rest3)
    else some (0, c :: rest)
  | [] => some (0, [])

/-- Application of a decimal exponent to an unnormalized fraction num over ten
to the pow: a nonnegative exponent multiplies the numerator, a negative one
adds to the power of ten in the denominator. -/
def applyExp (p : Int × Nat) (e : Int) : Int × Nat :=
  if 0 ≤ e then (p.1 * 10 ^ e.toNat, p.2) else (p.1, p.2 + (-e).toNat)

/-- Python float(s) on branching-value strings, modelled exactly: optional
surrounding whitespace, optional sign, decimal mantissa, optional exponent.
Returns none where Python raises ValueError, otherwise the value as an exact
unnormalized fraction (numerator, power of ten of the denominator); the
interpretation of the pair is pvVal below. -/
def pyFloat? (s : String) : Option (Int × Nat) :=
  let cs0 := s.data.dropWhile isSpaceCh
  let cs := (cs0.reverse.dropWhile isSpaceCh).reverse
  let neg := (parseSign cs).1
  let cs1 := (parseSign cs).2
  match parseUnsigned cs1 with
  | none => none
  | some (m, rest) =>
    match parseExpPart rest with
    | none => none
    | some (e, rest2) =>
      if rest2.isEmpty then
        some (applyExp ((if neg then -(m.1 : Int) else (m.1 : Int)), m.2) e)
      else none

/-- Rational value denoted by a parsed float. -/
def pvVal (p : Int × Nat) : ℚ := (p.1 : ℚ) / (10 : ℚ) ^ p.2

/-- The float comparison v > 5.0 of the source, as the exact rational
comparison implemented by cross-multiplication with the positive
denominator. -/
def pvGt5 (p : Int × Nat) : Prop := p.1 > 5 * 10 ^ p.2

/-- The float comparison v > 0.0 of the source, as the exact rational
comparison. -/
def pvGt0 (p : Int × Nat) : Prop := p.1 > 0

instance (p : Int × Nat) : Decidable (pvGt5 p) := by unfold pvGt5; infer_instance

instance (p : Int × Nat) : Decidable (pvGt0 p) := by unfold pvGt0; infer_instance

/-- Swap helper for the primary-mode fix (ChartDrawer.py lines 301-309): find
the first basic mode in the tail of the decay-mode list; the result is that
mode together with the tail in which it has been replaced by the original first
mode m0 (the in-place swap of list positions 0 and i). Returns none when the
tail holds no basic mode. -/
def swapFirstBasic (m0 : DecayMode) : List DecayMode → Option (DecayMode × List DecayMode)
  | [] => none
  | m :: ms =>
    if m.mode ∈ basic_decay_modes then some (m, m0 :: ms)
    else
      match swapFirstBasic m0 ms with
      | none => none
      | some (b, l) => some (b, m :: l)

/-- Primary-color resolution (ChartDrawer.py lines 293-311): returns the
primary color together with the possibly reordered decay-mode list, or none
when the nuclide is skipped (no basic mode anywhere and the first mode is not
an enabled unknown). An empty decay-mode list raises IndexError in the source,
which the caller catches drawing nothing; it is likewise none here. -/
def resolvePrimary (unknown : Bool) : List DecayMode → Option (String × List DecayMode)
  | [] => none
  | m0 :: rest =>
    if m0.mode ∈ basic_decay_modes then some (COLORS m0.mode, m0 :: rest)
    else if m0.mode = "?" ∧ unknown then some (COLORS "?", m0 :: rest)
    else
      match swapFirstBasic m0 rest with
      | some (b, rest') => some (COLORS b.mode, b :: rest')
      | none => none

inductive Size where
  | large
  | small
deriving DecidableEq

/-- State of the secondary-mode scan: the secondary_color and secondary_size
variables of ChartDrawer.py (none encodes not-yet-assigned). -/
structure ScanState where
  color : Option String
  size : Option Size
deriving DecidableEq

/-- One iteration of the secondary-mode loop body (ChartDrawer.py lines
330-344). Returns the updated state and whether the loop breaks. A basic mode
whose value fails to parse raises ValueError before secondary_color is
assigned, so the state is unchanged and the loop continues; a basic mode with a
parseable value always overwrites the color, sets the size to large when
v > 5 and the primary is not the stable color, to small when v > 0 otherwise,
and never breaks; a cluster-pattern mode sets a small cluster marker and
breaks. -/
def secondaryStep (primary : String) (st : ScanState) (dm : DecayMode) : ScanState × Bool :=
  if dm.mode ∈ basic_decay_modes then
    match pyFloat? (stripHash dm.value) with
    | none => (st, false)
    | some v =>
      let st1 : ScanState := ⟨some (COLORS dm.mode), st.size⟩
      if pvGt5 v ∧ primary ≠ COLORS "is" then (⟨st1.color, some Size.large⟩, false)
      else if pvGt0 v then (⟨st1.color, some Size.small⟩, false)
      else (st1, false)
  else if cluster_match dm.mode then
    (⟨some (COLORS "cluster"), some Size.small⟩, true)
  else (st, false)

/-- The secondary-mode loop (ChartDrawer.py lines 329-344) over the decay modes
from index 1 on. -/
def secondaryScan (primary : String) (st : ScanState) : List DecayMode → ScanState
  | [] => st
  | dm :: rest =>
    let s := secondaryStep primary st dm
    if s.2 then s.1 else secondaryScan primary s.1 rest

/-- The tertiary-mode loop (ChartDrawer.py lines 349-364) over the decay modes
from index 2 on; the result is the tertiary color (its size is always small).
A basic mode whose value parses breaks the loop whether or not v > 0 (the
break sits after the inner if); when the parse raises ValueError the break is
never reached and the except clause continues the loop; a cluster-pattern mode
sets the cluster color and breaks. -/
def tertiaryScan : List DecayMode → Option String
  | [] => none
  | dm :: rest =>
    if dm.mode ∈ basic_decay_modes then
      match pyFloat? (stripHash dm.value) with
      | none => tertiaryScan rest
      | some v => if pvGt0 v then some (COLORS dm.mode) else none
    else if cluster_match dm.mode then some (COLORS "cluster")
    else tertiaryScan rest

/-- Corner selection for a large secondary triangle (lines 369-377). -/
def largeCorner (secondary primary : String) : String :=
  if secondary = COLORS "a" then "lt"
  else if secondary = COLORS "b+" ∧ primary ≠ COLORS "a" ∧ primary ≠ COLORS "p" then "lt"
  else "rb"

/-- Corner selection for a small secondary triangle (lines 380-390). -/
def smallCorner (secondary primary : String) : String :=
  if secondary = COLORS "a" then "lt"
  else if secondary = COLORS "b+" ∧ primary ≠ COLORS "a" ∧ primary ≠ COLORS "p" then "lt"
  else if secondary = COLORS "cluster" then "rt"
  else "rb"

/-- Corner selection for the tertiary small triangle (lines 394-404). -/
def tertiaryCorner (tertiary primary secondary : String) : String :=
  if tertiary = COLORS "a" then "lt"
  else if tertiary = COLORS "b+" ∧ primary ≠ COLORS "a" ∧ secondary ≠ COLORS "a" then "lt"
  else if tertiary = COLORS "cluster" then "rt"
  else "rb"

/-- One scene element emitted for a nuclide. Rectangles sit in layer 0,
triangles in layer 1, texts in layer 3; the element identifiers derived from
the external Nuclide string representation are omitted. The half-life text
element records the exact data its string is computed from; the final
scientific-notation float formatting of the source (a Python float format
operation) stays outside the shallow embedding. -/
inductive Element where
  | rectangle (pos : ℚ × ℚ) (color : String)
  | triangle (pos : ℚ × ℚ) (color : String) (corner : String)
  | smallTriangle (pos : ℚ × ℚ) (color : String) (corner : String)
  | nameText (pos : ℚ × ℚ) (fontColor : String) (content : String)
  | halfLifeText (pos : ℚ × ℚ) (fontColor : String) (hl : HalfLife)
      (firstValue : String) (stablePrimary : Bool)
deriving DecidableEq

/-- Display toggles of the command line (all default to true; each flag
disables its feature). -/
structure Args where
  names : Bool
  halflives : Bool
  magic : Bool
  numbers : Bool
  unknown : Bool
deriving DecidableEq

/-- Result of draw_nuclide: the emitted scene elements and the nuclide record
as left behind by the call (the source mutates the decay-mode list in place
during the primary swap). -/
structure DrawResult where
  elements : List Element
  nuclide : Nuclide
deriving DecidableEq

/-- The draw_nuclide routine (ChartDrawer.py lines 276-441): primary color
resolution (with the in-place swap), the particle-unstable skip, the secondary
and tertiary scans, triangle corner selection and the text elements. -/
def draw_nuclide (n : Nuclide) (pos : ℚ × ℚ) (args : Args) : DrawResult :=
  match resolvePrimary args.unknown n.decay_modes with
  | none => ⟨[], n⟩
  | some (primary, modes) =>
    let n' : Nuclide := { n with decay_modes := modes }
    if containsSub n'.half_life.value "unstable" then ⟨[], n'⟩
    else
      let stp : ScanState × Option String :=
        if modes.length > 1 then
          let st := secondaryScan primary ⟨none, none⟩ (modes.drop 1)
          let tert :=
            if modes.length > 2 ∧
                (st.size = some Size.large ∨
                  (st.size = some Size.small ∧ primary = COLORS "is")) then
              tertiaryScan (modes.drop 2)
            else none
          (st, tert)
        else (⟨none, none⟩, none)
      let st := stp.1
      let secColor := st.color.getD ""
      let secEls : List Element :=
        match st.size with
        | some Size.large => [Element.triangle pos secColor (largeCorner secColor primary)]
        | some Size.small =>
            [Element.smallTriangle pos secColor (smallCorner secColor primary)]
        | none => []
      let tertEls : List Element :=
        match stp.2 with
        | some tcolor =>
            [Element.smallTriangle pos tcolor (tertiaryCorner tcolor primary secColor)]
        | none => []
      let font_color := if primary = COLORS "is" then FONT_COLOR_BRIGHT else FONT_COLOR_DARK
      let nameEls : List Element :=
        if args.names then
          [Element.nameText
            (pos.1 + (SIZE_SHAPE : ℚ) / 2,
             pos.2 + (SIZE_GAP : ℚ) + (1.25 : ℚ) * (SIZE_FONT : ℚ))
            font_color (n'.element ++ " " ++ toString n'.A)]
        else []
      let hlEls : List Element :=
        if args.halflives ∧ ¬(n'.half_life.extrapolated = "True") then
          [Element.halfLifeText
            (pos.1 + (SIZE_SHAPE : ℚ) / 2,
             pos.2 + (SIZE_SHAPE : ℚ) - (1.5 : ℚ) * (SIZE_FONT_HL : ℚ))
            font_color n'.half_life ((modes.head?.getD ⟨"", ""⟩).value)
            (primary = COLORS "is")]
        else []
      ⟨Element.rectangle pos primary :: (secEls ++ tertEls ++ nameEls ++ hlEls), n'⟩

/-- Raw isotope record as read from the XML: integer attributes A and Z
(records with non-integer attributes raise per-record errors in the source and
never reach the retained list, so they are absent here). -/
structure RawRecord where
  A : Int
  Z : Int
deriving DecidableEq

/-- Neutron number of a raw record. -/
def recN (r : RawRecord) : Int := r.A - r.Z

/-- The window test of ChartDrawer.py lines 130-131. -/
def inWindow (nr zr : Int × Int) (r : RawRecord) : Bool :=
  decide (nr.1 ≤ recN r ∧ recN r ≤ nr.2 ∧ zr.1 ≤ r.Z ∧ r.Z ≤ zr.2)

/-- The record loop of load_xml_nuclear_table (lines 124-149): records outside
the window are skipped; the elif break on lines 133-134 is kept faithfully
though it can never fire (it is only reached when the window test passed);
retained records update the running limits and are appended. -/
def loadLoop (nr zr : Int × Int) (nlim zlim : Int × Int) (acc : List RawRecord) :
    List RawRecord → List RawRecord × (Int × Int) × (Int × Int)
  | [] => (acc.reverse, nlim, zlim)
  | r :: rs =>
    if inWindow nr zr r = false then loadLoop nr zr nlim zlim acc rs
    else if recN r > nr.2 ∧ r.Z > zr.2 then (acc.reverse, nlim, zlim)
    else
      loadLoop nr zr
        (if recN r < nlim.1 then recN r else nlim.1,
         if recN r > nlim.2 then recN r else nlim.2)
        (if r.Z < zlim.1 then r.Z else zlim.1,
         if r.Z > zlim.2 then r.Z else zlim.2)
        (r :: acc) rs

/-- load_xml_nuclear_table (lines 99-149): the limits start at the opposite
ends of the requested ranges (lines 111-115) so that the first retained record
sets reasonable limits; returns the retained data, the N limits and the Z
limits. -/
def load_xml_nuclear_table (nr zr : Int × Int) (recs : List RawRecord) :
    List RawRecord × (Int × Int) × (Int × Int) :=
  loadLoop nr zr (nr.2, nr.1) (zr.2, zr.1) [] recs

/-- Canvas size computed in __main__ (lines 559-560). -/
def canvasSize (nlim zlim : Int × Int) : Int × Int :=
  ((nlim.2 - nlim.1 + 2) * SIZE_FIELD + SIZE_GAP,
   (zlim.2 - zlim.1 + 2) * SIZE_FIELD + SIZE_GAP)

/-- One step of the magic-number aggregation (lines 580-591), generic in the
coordinate tested against the magic list (key) and the orthogonal coordinate
(val). When the key already has an entry only the upper bound is ever updated
(the lower bound keeps the value of the first record seen). -/
def magicStep (key val : Int) (st : Int → Option (Int × Int)) : Int → Option (Int × Int) :=
  if key ∈ MAGIC_NUMBERS then
    match st key with
    | some lim =>
        if lim.2 < val then (fun k => if k = key then some (lim.1, val) else st k)
        else st
    | none => fun k => if k = key then some (val, val) else st k
  else st

/-- Fold of the magic aggregation over key-value pairs. -/
def magicFold (kv : List (Int × Int)) : Int → Option (Int × Int) :=
  kv.foldl (fun st p => magicStep p.1 p.2 st) (fun _ => none)

/-- The n_magic dictionary after the ingestion loop (lines 575-585). -/
def n_magic (data : List RawRecord) : Int → Option (Int × Int) :=
  magicFold (data.map (fun r => (recN r, r.Z)))

/-- The z_magic dictionary after the ingestion loop (lines 576-591). -/
def z_magic (data : List RawRecord) : Int → Option (Int × Int) :=
  magicFold (data.map (fun r => (r.Z, recN r)))

/-- Helper for the inner while loop of the N-axis numbering: walks the row
suffix starting at cell index z. The cell access happens before the bound
check, exactly as the Python condition evaluates left to right, so running off
the end of the row (the empty suffix) is the IndexError outcome. -/
def scanFirstAux (bound : Int) : List Bool → Nat → Except Unit Nat
  | [], _ => Except.error ()
  | b :: rest, z =>
    if b = false ∧ (z : Int) < bound then scanFirstAux bound rest (z + 1)
    else Except.ok z

/-- The inner while loop of the N-axis numbering (lines 469-472), scanning the
given row from index z upward. -/
def scanFirst (row : List Bool) (bound : Int) (z : Nat) : Except Unit Nat :=
  scanFirstAux bound (row.drop z) z

/-- Helper for the inner while loop of the Z-axis numbering: walks the list of
rows from row index nf upward, reading column z of each; the access one past
the last row (the empty suffix) is the IndexError outcome. -/
def scanFirstColAux (z : Nat) (bound : Int) : List (List Bool) → Nat → Except Unit Nat
  | [], _ => Except.error ()
  | row :: rest, nf =>
    match row.get? z with
    | none => Except.error ()
    | some b =>
      if b = false ∧ (nf : Int) < bound then scanFirstColAux z bound rest (nf + 1)
      else Except.ok nf

/-- The inner while loop of the Z-axis numbering (lines 479-482). -/
def scanFirstCol (shape : List (List Bool)) (z : Nat) (bound : Int) (nf : Nat) :
    Except Unit Nat :=
  scanFirstColAux z bound (shape.drop nf) nf

/-- An axis label placed by draw_numbers: position and the printed number. -/
structure AxisLabel where
  x : ℚ
  y : ℚ
  label : Int
deriving DecidableEq

/-- The N-axis loop of draw_numbers (lines 467-476) over the column indices. -/
def numbersN (shape : List (List Bool)) (nlim zlim : Int × Int) (height : Int) :
    List Nat → Except Unit (List AxisLabel)
  | [] => Except.ok []
  | n :: rest =>
    if ((n : Int) + nlim.1) % 2 = 0 ∧ (n : Int) + nlim.1 > 0 then
      match scanFirst (shape.getD n []) (zlim.2 - zlim.1 + 1) 0 with
      | Except.error e => Except.error e
      | Except.ok z_first =>
        match numbersN shape nlim zlim height rest with
        | Except.error e => Except.error e
        | Except.ok ls =>
          Except.ok
            (⟨((n : ℚ) + 1) * (SIZE_FIELD : ℚ) + (SIZE_GAP : ℚ) + (SIZE_SHAPE : ℚ) / 2,
              (height : ℚ) - ((z_first : ℚ) + 1) * (SIZE_FIELD : ℚ) + (SIZE_GAP : ℚ)
                + (1.25 : ℚ) * (SIZE_FONT : ℚ),
              (n : Int) + nlim.1⟩ :: ls)
    else numbersN shape nlim zlim height rest

/-- The Z-axis loop of draw_numbers (lines 477-486) over the row indices; the
evenness test reads z + (z_limits[0] % 2) by Python operator precedence. -/
def numbersZ (shape : List (List Bool)) (nlim zlim : Int × Int) (height : Int) :
    List Nat → Except Unit (List AxisLabel)
  | [] => Except.ok []
  | z :: rest =>
    if ((z : Int) + zlim.1 % 2) % 2 = 0 ∧ (z : Int) + zlim.1 > 0 then
      match scanFirstCol shape z (nlim.2 - nlim.1 + 1) 0 with
      | Except.error e => Except.error e
      | Except.ok n_first =>
        match numbersZ shape nlim zlim height rest with
        | Except.error e => Except.error e
        | Except.ok ls =>
          Except.ok
            (⟨(n_first : ℚ) * (SIZE_FIELD : ℚ) + (SIZE_SHAPE : ℚ) / 2
                + 3 * (SIZE_GAP : ℚ),
              (height : ℚ) - ((z : ℚ) + 2) * (SIZE_FIELD : ℚ) + (SIZE_SHAPE : ℚ) / 2
                + 2 * (SIZE_GAP : ℚ),
              (z : Int) + zlim.1⟩ :: ls)
    else numbersZ shape nlim zlim height rest

/-- draw_numbers (lines 466-486): both axis loops; an IndexError in either scan
aborts the call (the call site in __main__ is outside any try block, so the
error crashes the whole program). -/
def draw_numbers (shape : List (List Bool)) (nlim zlim : Int × Int) (height : Int) :
    Except Unit (List AxisLabel) :=
  match numbersN shape nlim zlim height (List.range (nlim.2 - nlim.1 + 1).toNat) with
  | Except.error e => Except.error e
  | Except.ok ls1 =>
    match numbersZ shape nlim zlim height (List.range (zlim.2 - zlim.1 + 1).toNat) with
    | Except.error e => Except.error e
    | Except.ok ls2 => Except.ok (ls1 ++ ls2)

/-- Range validation in __main__ (lines 512-520). Python exit() with no
argument raises SystemExit with code None, which terminates the interpreter
with exit status 0; the result is some status when the program exits before
any data processing and none when execution continues. -/
def rangeCheckExit (nRange zRange : Int × Int) : Option Nat :=
  if nRange.1 > nRange.2 then some 0
  else if zRange.1 > zRange.2 then some 0
  else none

section Helpers

lemma swapFirstBasic_none (m0 : DecayMode) :
    ∀ l : List DecayMode, (∀ x ∈ l, x.mode ∉ basic_decay_modes) →
      swapFirstBasic m0 l = none := by
  intro l
  induction l with
  | nil => intro _; rfl
  | cons m ms ih =>
    intro h
    have hm : m.mode ∉ basic_decay_modes := h m (List.mem_cons_self m ms)
    have hms := ih (fun x hx => h x (List.mem_cons_of_mem m hx))
    simp [swapFirstBasic, hm, hms]

lemma swapFirstBasic_eq (m0 b : DecayMode) (r2 : List DecayMode) :
    ∀ r1 : List DecayMode, (∀ x ∈ r1, x.mode ∉ basic_decay_modes) →
      b.mode ∈ basic_decay_modes →
      swapFirstBasic m0 (r1 ++ b :: r2) = some (b, r1 ++ m0 :: r2) := by
  intro r1
  induction r1 with
  | nil => intro _ hb; simp [swapFirstBasic, hb]
  | cons m ms ih =>
    intro h hb
    have hm : m.mode ∉ basic_decay_modes := h m (List.mem_cons_self m ms)
    have hms := ih (fun x hx => h x (List.mem_cons_of_mem m hx)) hb
    simp [swapFirstBasic, hm, hms]

lemma cluster_match_basic_false (s : String) (hmem : s ∈ basic_decay_modes) :
    cluster_match s = false := by
  fin_cases hmem <;> decide

lemma secondaryStep_break_false (primary : String) (st : ScanState) (dm : DecayMode)
    (h : cluster_match dm.mode = false) : (secondaryStep primary st dm).2 = false := by
  unfold secondaryStep
  by_cases hb : dm.mode ∈ basic_decay_modes
  · cases hpf : pyFloat? (stripHash dm.value) with
    | none => simp [hb, hpf]
    | some v => simp only [hb, if_pos, hpf]; split_ifs <;> rfl
  · simp [hb, h]

lemma secondaryScan_append (primary : String) (dm : DecayMode) :
    ∀ (l : List DecayMode) (st : ScanState), (∀ x ∈ l, cluster_match x.mode = false) →
      secondaryScan primary st (l ++ [dm]) =
        (secondaryStep primary (secondaryScan primary st l) dm).1 := by
  intro l
  induction l with
  | nil =>
    intro st _
    by_cases h : (secondaryStep primary st dm).2 <;>
      simp [secondaryScan, h]
  | cons x xs ih =>
    intro st h
    have hx := secondaryStep_break_false primary st x (h x (List.mem_cons_self x xs))
    simp only [List.cons_append, secondaryScan, hx, if_neg Bool.false_ne_true]
    exact ih _ (fun y hy => h y (List.mem_cons_of_mem x hy))

lemma resolvePrimary_perm (u : Bool) :
    ∀ (l : List DecayMode) (c : String) (l' : List DecayMode),
      resolvePrimary u l = some (c, l') → l'.Perm l := by
  have hswap : ∀ (l : List DecayMode) (m0 b : DecayMode) (l' : List DecayMode),
      swapFirstBasic m0 l = some (b, l') → (b :: l').Perm (m0 :: l) := by
    intro l
    induction l with
    | nil => intro m0 b l' h; cases h
    | cons m ms ih =>
      intro m0 b l' h
      unfold swapFirstBasic at h
      by_cases hm : m.mode ∈ basic_decay_modes
      · rw [if_pos hm] at h
        injection h with h'
        injection h' with h1 h2
        subst h1; subst h2
        exact List.Perm.swap m0 m ms
      · rw [if_neg hm] at h
        cases hs : swapFirstBasic m0 ms with
        | none => rw [hs] at h; cases h
        | some p =>
          obtain ⟨b', l''⟩ := p
          rw [hs] at h
          injection h with h'
          injection h' with h1 h2
          subst h1; subst h2
          have hp := ih m0 b' l'' hs
          exact (List.Perm.swap m b' l'').trans ((hp.cons m).trans (List.Perm.swap m0 m ms))
  intro l c l' h
  cases l with
  | nil => cases h
  | cons m0 rest =>
    simp only [resolvePrimary] at h
    by_cases h1 : m0.mode ∈ basic_decay_modes
    · rw [if_pos h1] at h
      injection h with h'
      injection h' with _ h2
      subst h2; exact List.Perm.refl _
    · rw [if_neg h1] at h
      by_cases h2 : m0.mode = "?" ∧ u
      · rw [if_pos h2] at h
        injection h with h'
        injection h' with _ h3
        subst h3; exact List.Perm.refl _
      · rw [if_neg h2] at h
        cases hs : swapFirstBasic m0 rest with
        | none => rw [hs] at h; cases h
        | some p =>
          obtain ⟨b, rest'⟩ := p
          rw [hs] at h
          injection h with h'
          injection h' with _ h3
          subst h3
          exact hswap rest m0 b rest' hs

lemma pvGt5_iff (p : Int × Nat) : pvGt5 p ↔ pvVal p > 5 := by
  unfold pvGt5 pvVal
  rw [gt_iff_lt, gt_iff_lt, lt_div_iff₀ (by positivity : (0 : ℚ) < (10 : ℚ) ^ p.2)]
  constructor
  · intro h
    calc (5 : ℚ) * 10 ^ p.2 = ((5 * 10 ^ p.2 : Int) : ℚ) := by push_cast; ring
    _ < (p.1 : ℚ) := by exact_mod_cast h
  · intro h
    have h2 : ((5 * 10 ^ p.2 : Int) : ℚ) < (p.1 : ℚ) := by
      calc ((5 * 10 ^ p.2 : Int) : ℚ) = (5 : ℚ) * 10 ^ p.2 := by push_cast; ring
      _ < (p.1 : ℚ) := h
    exact_mod_cast h2

lemma pvGt0_iff (p : Int × Nat) : pvGt0 p ↔ pvVal p > 0 := by
  unfold pvGt0 pvVal
  rw [gt_iff_lt, gt_iff_lt, lt_div_iff₀ (by positivity : (0 : ℚ) < (10 : ℚ) ^ p.2),
    zero_mul]
  constructor <;> intro h <;> exact_mod_cast h

end Helpers

/-- Claim C1: the primary-color step of the resolver. If the first decay mode
is basic, the primary color is its fixed mapping; if the first mode is the
unknown code and unknown-display is enabled, the primary color is the unknown
color; otherwise the first basic mode at a later index is swapped into first
position and its mapped color becomes primary; and when the list contains no
basic mode anywhere (and the first mode is not an enabled unknown), the
isotope is skipped and produces zero scene elements. -/
theorem claim_C1 :
    (∀ (u : Bool) (m0 : DecayMode) (rest : List DecayMode),
       m0.mode ∈ basic_decay_modes →
       resolvePrimary u (m0 :: rest) = some (COLORS m0.mode, m0 :: rest)) ∧
    (∀ (u : Bool) (m0 : DecayMode) (rest : List DecayMode),
       m0.mode = "?" → u = true →
       resolvePrimary u (m0 :: rest) = some (COLORS "?", m0 :: rest)) ∧
    (∀ (u : Bool) (m0 b : DecayMode) (r1 r2 : List DecayMode),
       m0.mode ∉ basic_decay_modes → ¬(m0.mode = "?" ∧ u = true) →
       (∀ x ∈ r1, x.mode ∉ basic_decay_modes) → b.mode ∈ basic_decay_modes →
       resolvePrimary u (m0 :: (r1 ++ b :: r2)) =
         some (COLORS b.mode, b :: (r1 ++ m0 :: r2))) ∧
    (∀ (n : Nuclide) (pos : ℚ × ℚ) (args : Args) (m0 : DecayMode)
       (rest : List DecayMode),
       n.decay_modes = m0 :: rest →
       (∀ m ∈ n.decay_modes, m.mode ∉ basic_decay_modes) →
       ¬(m0.mode = "?" ∧ args.unknown = true) →
       (draw_nuclide n pos args).elements = []) := by
  refine ⟨?_, ?_, ?_, ?_⟩
  · intro u m0 rest h
    simp [resolvePrimary, h]
  · intro u m0 rest hq hu
    have hnb : m0.mode ∉ basic_decay_modes := by rw [hq]; decide
    simp [resolvePrimary, hnb, hq, hu]
  · intro u m0 b r1 r2 hnb hq h1 hb
    simp only [resolvePrimary]
    rw [if_neg hnb, if_neg hq, swapFirstBasic_eq m0 b r2 r1 h1 hb]
  · intro n pos args m0 rest hmodes hall hq
    have hres : resolvePrimary args.unknown n.decay_modes = none := by
      rw [hmodes]
      have hnb : m0.mode ∉ basic_decay_modes :=
        hall m0 (by rw [hmodes]; exact List.mem_cons_self m0 rest)
      have hrest : ∀ x ∈ rest, x.mode ∉ basic_decay_modes :=
        fun x hx => hall x (by rw [hmodes]; exact List.mem_cons_of_mem m0 hx)
      simp only [resolvePrimary]
      rw [if_neg hnb, if_neg hq, swapFirstBasic_none m0 rest hrest]
    simp [draw_nuclide, hres]

/-- Witness for claim C1 at concrete inputs: a basic first mode, an enabled
unknown first mode, a swapped primary, and a skipped isotope with no basic
mode anywhere. -/
theorem claim_C1_witness :
    resolvePrimary true [⟨"a", "100"⟩] = some (COLORS "a", [⟨"a", "100"⟩]) ∧
    resolvePrimary true [⟨"?", "100"⟩, ⟨"it", "1"⟩] =
      some (COLORS "?", [⟨"?", "100"⟩, ⟨"it", "1"⟩]) ∧
    resolvePrimary true [⟨"b+p", "10"⟩, ⟨"it", "5"⟩, ⟨"b+", "90"⟩, ⟨"a", "1"⟩] =
      some (COLORS "b+", [⟨"b+", "90"⟩, ⟨"it", "5"⟩, ⟨"b+p", "10"⟩, ⟨"a", "1"⟩]) ∧
    (draw_nuclide ⟨5, 12, "B", [⟨"b+p", "10"⟩], ⟨"1.0", "s", "=", "False"⟩⟩
        (0, 0) ⟨true, true, true, true, false⟩).elements = [] :=
  ⟨claim_C1.1 true ⟨"a", "100"⟩ [] (by decide),
   claim_C1.2.1 true ⟨"?", "100"⟩ [⟨"it", "1"⟩] rfl rfl,
   claim_C1.2.2.1 true ⟨"b+p", "10"⟩ ⟨"b+", "90"⟩ [⟨"it", "5"⟩] [⟨"a", "1"⟩]
     (by decide) (by decide) (by decide) (by decide),
   claim_C1.2.2.2 ⟨5, 12, "B", [⟨"b+p", "10"⟩], ⟨"1.0", "s", "=", "False"⟩⟩
     (0, 0) ⟨true, true, true, true, false⟩ ⟨"b+p", "10"⟩ [] rfl (by decide) (by decide)⟩

/-- Claim C2: at the point where the secondary scan selects a basic mode with a
parseable branching value v (the state has no marker size yet), the step sets a
large marker exactly when v > 5 and the primary is not the stable color, a
small marker exactly when v > 0 but no large marker applies, records the mode's
mapped color, and a value of exactly 5 never yields a large marker. -/
theorem claim_C2 (primary : String) (st : ScanState) (dm : DecayMode) (p : Int × Nat)
    (hmode : dm.mode ∈ basic_decay_modes)
    (hv : pyFloat? (stripHash dm.value) = some p)
    (hst : st.size = none) :
    ((secondaryStep primary st dm).1.size = some Size.large ↔
       (pvVal p > 5 ∧ primary ≠ COLORS "is")) ∧
    ((secondaryStep primary st dm).1.size = some Size.small ↔
       (pvVal p > 0 ∧ ¬(pvVal p > 5 ∧ primary ≠ COLORS "is"))) ∧
    (secondaryStep primary st dm).1.color = some (COLORS dm.mode) ∧
    (pvVal p = 5 → (secondaryStep primary st dm).1.size ≠ some Size.large) := by
  unfold secondaryStep
  rw [if_pos hmode, hv]
  dsimp only
  by_cases h1 : pvGt5 p ∧ primary ≠ COLORS "is"
  · rw [if_pos h1]
    have h1' : pvVal p > 5 ∧ primary ≠ COLORS "is" := ⟨(pvGt5_iff p).mp h1.1, h1.2⟩
    refine ⟨by simp [h1'], ?_, rfl, ?_⟩
    · exact iff_of_false (by simp) (fun hc => hc.2 h1')
    · intro h5
      rw [h5] at h1'
      exact absurd h1'.1 (by norm_num)
  · rw [if_neg h1]
    have h1' : ¬(pvVal p > 5 ∧ primary ≠ COLORS "is") :=
      fun hc => h1 ⟨(pvGt5_iff p).mpr hc.1, hc.2⟩
    by_cases h2 : pvGt0 p
    · rw [if_pos h2]
      have h2' := (pvGt0_iff p).mp h2
      exact ⟨iff_of_false (by simp) h1', iff_of_true rfl ⟨h2', h1'⟩, rfl, fun _ => by simp⟩
    · rw [if_neg h2]
      have h2' : ¬(pvVal p > 0) := fun hc => h2 ((pvGt0_iff p).mpr hc)
      refine ⟨iff_of_false (by simp [hst]) ?_, iff_of_false (by simp [hst]) ?_, rfl,
        fun _ => by simp [hst]⟩
      · exact fun hc => h2' (lt_trans (by norm_num) hc.1)
      · exact fun hc => h2' hc.1

/-- Witness for claim C2: a beta-minus primary with a secondary alpha mode of
branching 10 percent yields a large marker, and one of exactly 5 percent does
not. -/
theorem claim_C2_witness :
    (((secondaryStep (COLORS "b-") ⟨none, none⟩ ⟨"a", "10"⟩).1.size = some Size.large ↔
        (pvVal (10, 0) > 5 ∧ COLORS "b-" ≠ COLORS "is")) ∧
     ((secondaryStep (COLORS "b-") ⟨none, none⟩ ⟨"a", "10"⟩).1.size = some Size.small ↔
        (pvVal (10, 0) > 0 ∧ ¬(pvVal (10, 0) > 5 ∧ COLORS "b-" ≠ COLORS "is"))) ∧
     (secondaryStep (COLORS "b-") ⟨none, none⟩ ⟨"a", "10"⟩).1.color =
        some (COLORS "a") ∧
     (pvVal (10, 0) = 5 →
        (secondaryStep (COLORS "b-") ⟨none, none⟩ ⟨"a", "10"⟩).1.size ≠
          some Size.large)) ∧
    (pvVal (5, 0) = 5 →
       (secondaryStep (COLORS "b-") ⟨none, none⟩ ⟨"a", "5"⟩).1.size ≠
         some Size.large) :=
  ⟨claim_C2 (COLORS "b-") ⟨none, none⟩ ⟨"a", "10"⟩ (10, 0) (by decide) (by decide) rfl,
   (claim_C2 (COLORS "b-") ⟨none, none⟩ ⟨"a", "5"⟩ (5, 0) (by decide) (by decide)
     rfl).2.2.2⟩

/-- Claim C3 counterexample: the secondary scan does not stop at the first
qualifying mode. With modes beta-minus, alpha (branching 50) and proton
(branching 30), the first qualifying mode at index 1 is the alpha entry (basic,
parseable, positive), yet the final secondary marker carries the proton color:
the later basic mode overwrote it, refuting the claim at this input. -/
theorem claim_C3_cex :
    secondaryScan (COLORS "b-") ⟨none, none⟩ [⟨"a", "50"⟩, ⟨"p", "30"⟩] =
      ⟨some (COLORS "p"), some Size.large⟩ ∧
    (⟨"a", "50"⟩ : DecayMode).mode ∈ basic_decay_modes ∧
    pyFloat? (stripHash "50") = some (50, 0) ∧ pvGt0 (50, 0) ∧
    COLORS "p" ≠ COLORS "a" := by decide

/-- Claim C3 amended: non-numeric branching values are skipped with the state
unchanged and scanning continues; and in the absence of a cluster match the
secondary color is that of the last basic mode with a parseable value (each
parseable basic mode overwrites the color, so later modes do affect the
marker). -/
theorem claim_C3_amended :
    (∀ (primary : String) (st : ScanState) (dm : DecayMode),
       dm.mode ∈ basic_decay_modes → pyFloat? (stripHash dm.value) = none →
       secondaryStep primary st dm = (st, false)) ∧
    (∀ (primary : String) (st : ScanState) (l : List DecayMode) (dm : DecayMode)
       (p : Int × Nat),
       (∀ x ∈ l, cluster_match x.mode = false) →
       dm.mode ∈ basic_decay_modes → pyFloat? (stripHash dm.value) = some p →
       (secondaryScan primary st (l ++ [dm])).color = some (COLORS dm.mode)) := by
  constructor
  · intro primary st dm hb hv
    unfold secondaryStep
    rw [if_pos hb, hv]
  · intro primary st l dm p hl hb hv
    rw [secondaryScan_append primary dm l st hl]
    unfold secondaryStep
    rw [if_pos hb, hv]
    dsimp only
    split_ifs <;> rfl

/-- Witness for the amended claim C3: an unparseable beta-plus entry leaves the
scan state untouched, and across an alpha entry of branching 50 the final color
is that of the last parseable basic mode (the proton entry). -/
theorem claim_C3_witness :
    secondaryStep (COLORS "b-") ⟨some (COLORS "a"), some Size.large⟩ ⟨"b+", "xyz"⟩ =
      (⟨some (COLORS "a"), some Size.large⟩, false) ∧
    (secondaryScan (COLORS "b-") ⟨none, none⟩
        ([⟨"a", "50"⟩] ++ [⟨"p", "30"⟩])).color = some (COLORS "p") :=
  ⟨claim_C3_amended.1 (COLORS "b-") ⟨some (COLORS "a"), some Size.large⟩
     ⟨"b+", "xyz"⟩ (by decide) (by decide),
   claim_C3_amended.2 (COLORS "b-") ⟨none, none⟩ [⟨"a", "50"⟩] ⟨"p", "30"⟩ (30, 0)
     (by decide) (by decide) (by decide)⟩

/-- Claim C4 counterexample: the tertiary scan does skip past a basic mode
whose branching value fails to parse. With the scan reaching a basic alpha
entry whose value is not numeric followed by a proton entry, the result is the
proton color, so the scan did not stop at the first basic mode. -/
theorem claim_C4_cex :
    tertiaryScan [⟨"a", "xyz"⟩, ⟨"p", "10"⟩] = some (COLORS "p") ∧
    (⟨"a", "xyz"⟩ : DecayMode).mode ∈ basic_decay_modes ∧
    pyFloat? (stripHash "xyz") = none ∧
    COLORS "p" ≠ COLORS "a" := by decide

/-- Claim C4 amended: the tertiary scan stops at the first mode that is a
cluster match or a basic mode whose branching value parses (stopping even when
the parsed value is not positive, in which case no tertiary marker is set); a
basic mode whose value fails to parse is skipped and scanning continues. -/
theorem claim_C4_amended :
    (∀ (dm : DecayMode) (rest : List DecayMode) (p : Int × Nat),
       dm.mode ∈ basic_decay_modes → pyFloat? (stripHash dm.value) = some p →
       tertiaryScan (dm :: rest) =
         if pvGt0 p then some (COLORS dm.mode) else none) ∧
    (∀ (dm : DecayMode) (rest : List DecayMode),
       cluster_match dm.mode = true →
       tertiaryScan (dm :: rest) = some (COLORS "cluster")) ∧
    (∀ (dm : DecayMode) (rest : List DecayMode),
       dm.mode ∈ basic_decay_modes → pyFloat? (stripHash dm.value) = none →
       tertiaryScan (dm :: rest) = tertiaryScan rest) := by
  refine ⟨?_, ?_, ?_⟩
  · intro dm rest p hb hv
    simp only [tertiaryScan]
    rw [if_pos hb, hv]
  · intro dm rest hc
    have hnb : dm.mode ∉ basic_decay_modes := fun hmem => by
      rw [cluster_match_basic_false dm.mode hmem] at hc
      cases hc
    simp only [tertiaryScan]
    rw [if_neg hnb, if_pos hc]
  · intro dm rest hb hv
    simp only [tertiaryScan]
    rw [if_pos hb, hv]

/-- Witness for the amended claim C4: a parseable zero-branching basic mode
stops the scan without a marker, a cluster entry stops it with the cluster
color, and an unparseable basic mode is skipped. -/
theorem claim_C4_witness :
    tertiaryScan [⟨"a", "0"⟩, ⟨"p", "10"⟩] =
      (if pvGt0 ((0 : Int), 0) then some (COLORS "a") else none) ∧
    tertiaryScan [⟨"14c", "1e-5"⟩, ⟨"a", "1"⟩] = some (COLORS "cluster") ∧
    tertiaryScan [⟨"a", "xyz"⟩, ⟨"p", "10"⟩] = tertiaryScan [⟨"p", "10"⟩] :=
  ⟨claim_C4_amended.1 ⟨"a", "0"⟩ [⟨"p", "10"⟩] (0, 0) (by decide) (by decide),
   claim_C4_amended.2.1 ⟨"14c", "1e-5"⟩ [⟨"a", "1"⟩] (by decide),
   claim_C4_amended.2.2 ⟨"a", "xyz"⟩ [⟨"p", "10"⟩] (by decide) (by decide)⟩

/-- Claim C7: with an inverted N range the program does terminate before
reading any isotope data (the validation fires first), but the bare Python
exit() call terminates the process with exit status 0, not a non-zero status
as the claim states; the claim is right about the intent (an error diagnostic
is printed) and the code's exit status is the slip. -/
theorem claim_C7_code : rangeCheckExit (10, 2) (0, 120) = some 0 := rfl

/-- Claim C8: the first-occupied-cell scan is not bounded by the grid edge.
The while condition tests the cell before the bound, so on a column with no
occupied cell the scan reads one cell past the row end and raises IndexError:
here the grid for records at (N,Z) = (1,0) and (3,1) has the in-range column
N = 2 fully empty, and both the inner scan and the whole draw_numbers call
end in the error outcome (the call site in the source is outside any try
block, so the program crashes). The claim matches the loop's evident intent
(it carries a bound check); the evaluation order is the slip. -/
theorem claim_C8_code :
    scanFirst [false, false] 2 0 = Except.error () ∧
    draw_numbers [[true, false], [false, false], [false, true]] (1, 3) (0, 1) 100 =
      Except.error () :=
  ⟨rfl, rfl⟩

/-- Claim C9 counterexample: the isotope record is not immutable during
rendering. For a record whose first mode is the non-basic composite beta-plus
proton code, draw_nuclide swaps the later beta-plus mode into first position,
so the decay-mode list after the call differs from the one before. -/
theorem claim_C9_cex :
    (draw_nuclide ⟨5, 12, "B", [⟨"b+p", "10"⟩, ⟨"b+", "90"⟩],
        ⟨"1.0", "s", "=", "False"⟩⟩ (0, 0)
        ⟨false, false, true, true, true⟩).nuclide.decay_modes =
      [⟨"b+", "90"⟩, ⟨"b+p", "10"⟩] ∧
    ([⟨"b+", "90"⟩, ⟨"b+p", "10"⟩] : List DecayMode) ≠
      [⟨"b+p", "10"⟩, ⟨"b+", "90"⟩] := by decide

/-- Claim C9 amended: all fields of the record except the decay-mode list are
unchanged by rendering; the decay-mode list is always a permutation of the
original (the only mutation is the primary-fix swap), and when the first mode
is already basic the record is left entirely unchanged. -/
theorem claim_C9_amended (n : Nuclide) (pos : ℚ × ℚ) (args : Args) :
    (draw_nuclide n pos args).nuclide.Z = n.Z ∧
    (draw_nuclide n pos args).nuclide.A = n.A ∧
    (draw_nuclide n pos args).nuclide.element = n.element ∧
    (draw_nuclide n pos args).nuclide.half_life = n.half_life ∧
    ((draw_nuclide n pos args).nuclide.decay_modes).Perm n.decay_modes ∧
    (∀ (m0 : DecayMode) (rest : List DecayMode),
       n.decay_modes = m0 :: rest → m0.mode ∈ basic_decay_modes →
       (draw_nuclide n pos args).nuclide = n) := by
  cases hres : resolvePrimary args.unknown n.decay_modes with
  | none =>
    have hnuc : (draw_nuclide n pos args).nuclide = n := by
      simp [draw_nuclide, hres]
    rw [hnuc]
    exact ⟨rfl, rfl, rfl, rfl, List.Perm.refl _, fun _ _ _ _ => rfl⟩
  | some pr =>
    obtain ⟨primary, modes⟩ := pr
    have hperm := resolvePrimary_perm args.unknown n.decay_modes primary modes hres
    have hnuc : (draw_nuclide n pos args).nuclide = { n with decay_modes := modes } := by
      simp only [draw_nuclide, hres]
      split_ifs <;> rfl
    rw [hnuc]
    refine ⟨rfl, rfl, rfl, rfl, hperm, ?_⟩
    intro m0 rest hmodes hb
    have hfix : resolvePrimary args.unknown n.decay_modes =
        some (COLORS m0.mode, n.decay_modes) := by
      rw [hmodes]
      simp [resolvePrimary, hb]
    rw [hres] at hfix
    injection hfix with h'
    injection h' with h1 h2
    rw [h2]

/-- Claim C10: a cluster-pattern mode reached by the secondary scan yields a
small marker with the cluster color, stops the scan (later modes are ignored),
is independent of the mode's branching value, and the small-triangle corner for
the cluster color is top-right whatever the primary; likewise for the tertiary
scan and its corner rule. -/
theorem claim_C10 (primary : String) (st : ScanState) (dm : DecayMode)
    (rest : List DecayMode) (hc : cluster_match dm.mode = true) :
    secondaryScan primary st (dm :: rest) =
      ⟨some (COLORS "cluster"), some Size.small⟩ ∧
    smallCorner (COLORS "cluster") primary = "rt" ∧
    tertiaryScan (dm :: rest) = some (COLORS "cluster") ∧
    tertiaryCorner (COLORS "cluster") primary (st.color.getD "") = "rt" := by
  have hnb : dm.mode ∉ basic_decay_modes := fun hmem => by
    rw [cluster_match_basic_false dm.mode hmem] at hc
    cases hc
  have h1 : ¬(COLORS "cluster" = COLORS "a") := by decide
  have h2 : ∀ q r : Prop, ¬(COLORS "cluster" = COLORS "b+" ∧ q ∧ r) :=
    fun q r hx => absurd hx.1 (by decide)
  refine ⟨?_, ?_, ?_, ?_⟩
  · have hstep : secondaryStep primary st dm =
        (⟨some (COLORS "cluster"), some Size.small⟩, true) := by
      unfold secondaryStep
      rw [if_neg hnb, if_pos hc]
    simp [secondaryScan, hstep]
  · unfold smallCorner
    rw [if_neg h1, if_neg (h2 _ _), if_pos rfl]
  · simp only [tertiaryScan]
    rw [if_neg hnb, if_pos hc]
  · unfold tertiaryCorner
    rw [if_neg h1, if_neg (h2 _ _), if_pos rfl]

/-- Witness for claim C10: the carbon-14 cluster code with a tiny branching
value, reached at the start of both scans with a beta-minus primary. -/
theorem claim_C10_witness :
    secondaryScan (COLORS "b-") ⟨none, none⟩ [⟨"14c", "1e-5"⟩, ⟨"a", "1"⟩] =
      ⟨some (COLORS "cluster"), some Size.small⟩ ∧
    smallCorner (COLORS "cluster") (COLORS "b-") = "rt" ∧
    tertiaryScan [⟨"14c", "1e-5"⟩, ⟨"a", "1"⟩] = some (COLORS "cluster") ∧
    tertiaryCorner (COLORS "cluster") (COLORS "b-")
      ((ScanState.mk none none).color.getD "") = "rt" :=
  claim_C10 (COLORS "b-") ⟨none, none⟩ ⟨"14c", "1e-5"⟩ [⟨"a", "1"⟩] (by decide)

lemma foldl_minP {α : Type} (f : α → Int) (l : List α) : ∀ b : Int,
    (∀ x ∈ l, List.foldl (fun a r => if f r < a then f r else a) b l ≤ f x) ∧
    List.foldl (fun a r => if f r < a then f r else a) b l ≤ b ∧
    (List.foldl (fun a r => if f r < a then f r else a) b l = b ∨
     ∃ x ∈ l, List.foldl (fun a r => if f r < a then f r else a) b l = f x) := by
  induction l with
  | nil => intro b; exact ⟨by simp, le_refl b, Or.inl rfl⟩
  | cons x xs ih =>
    intro b
    obtain ⟨h1, h2, h3⟩ := ih (if f x < b then f x else b)
    simp only [List.foldl_cons]
    have hfx : (if f x < b then f x else b) ≤ f x := by split <;> omega
    have hfb : (if f x < b then f x else b) ≤ b := by split <;> omega
    refine ⟨?_, le_trans h2 hfb, ?_⟩
    · intro y hy
      rcases List.mem_cons.mp hy with h | h
      · rw [h]; exact le_trans h2 hfx
      · exact h1 y h
    · rcases h3 with he | ⟨y, hy, he⟩
      · by_cases hxb : f x < b
        · right
          exact ⟨x, List.mem_cons_self x xs, by rw [he, if_pos hxb]⟩
        · left
          rw [he, if_neg hxb]
      · right
        exact ⟨y, List.mem_cons_of_mem x hy, he⟩

lemma foldl_maxP {α : Type} (f : α → Int) (l : List α) : ∀ b : Int,
    (∀ x ∈ l, f x ≤ List.foldl (fun a r => if f r > a then f r else a) b l) ∧
    b ≤ List.foldl (fun a r => if f r > a then f r else a) b l ∧
    (List.foldl (fun a r => if f r > a then f r else a) b l = b ∨
     ∃ x ∈ l, List.foldl (fun a r => if f r > a then f r else a) b l = f x) := by
  induction l with
  | nil => intro b; exact ⟨by simp, le_refl b, Or.inl rfl⟩
  | cons x xs ih =>
    intro b
    obtain ⟨h1, h2, h3⟩ := ih (if f x > b then f x else b)
    simp only [List.foldl_cons]
    have hfx : f x ≤ (if f x > b then f x else b) := by split <;> omega
    have hfb : b ≤ (if f x > b then f x else b) := by split <;> omega
    refine ⟨?_, le_trans hfb h2, ?_⟩
    · intro y hy
      rcases List.mem_cons.mp hy with h | h
      · rw [h]; exact le_trans hfx h2
      · exact h1 y h
    · rcases h3 with he | ⟨y, hy, he⟩
      · by_cases hxb : f x > b
        · right
          exact ⟨x, List.mem_cons_self x xs, by rw [he, if_pos hxb]⟩
        · left
          rw [he, if_neg hxb]
      · right
        exact ⟨y, List.mem_cons_of_mem x hy, he⟩

lemma loadLoop_eq (nr zr : Int × Int) :
    ∀ (rs : List RawRecord) (nlim zlim : Int × Int) (acc : List RawRecord),
      loadLoop nr zr nlim zlim acc rs =
        (acc.reverse ++ rs.filter (inWindow nr zr),
         ((rs.filter (inWindow nr zr)).foldl
            (fun a r => if recN r < a then recN r else a) nlim.1,
          (rs.filter (inWindow nr zr)).foldl
            (fun a r => if recN r > a then recN r else a) nlim.2),
         ((rs.filter (inWindow nr zr)).foldl
            (fun a r => if r.Z < a then r.Z else a) zlim.1,
          (rs.filter (inWindow nr zr)).foldl
            (fun a r => if r.Z > a then r.Z else a) zlim.2)) := by
  intro rs
  induction rs with
  | nil => intro nlim zlim acc; simp [loadLoop]
  | cons r rs ih =>
    intro nlim zlim acc
    cases hw : inWindow nr zr r with
    | false =>
      simp only [loadLoop]
      rw [if_pos hw, ih]
      simp [List.filter_cons, hw]
    | true =>
      have hw' : nr.1 ≤ recN r ∧ recN r ≤ nr.2 ∧ zr.1 ≤ r.Z ∧ r.Z ≤ zr.2 := by
        simpa [inWindow] using hw
      simp only [loadLoop]
      rw [if_neg (by simp [hw]),
        if_neg (fun hcc => absurd hcc.1 (not_lt.mpr hw'.2.1)), ih]
      simp [List.filter_cons, hw]

/-- Claim C5: a record whose (N, Z) lies outside the requested window is
excluded both from the retained record set and from the tight-extrema
computation (removing it changes nothing); the retained set is exactly the
in-window records; the resulting limits are the observed minimum and maximum
N and Z over the retained records; and the canvas is (max N - min N + 2)
cell-fields plus a gap wide and symmetrically for height. -/
theorem claim_C5 (nr zr : Int × Int) (recs data : List RawRecord)
    (nlim zlim : Int × Int)
    (hload : load_xml_nuclear_table nr zr recs = (data, nlim, zlim))
    (hne : recs.filter (inWindow nr zr) ≠ []) :
    (∀ (l1 : List RawRecord) (bad : RawRecord) (l2 : List RawRecord),
       recs = l1 ++ bad :: l2 → inWindow nr zr bad = false →
       load_xml_nuclear_table nr zr (l1 ++ l2) = (data, nlim, zlim)) ∧
    data = recs.filter (inWindow nr zr) ∧
    (∀ r ∈ data, nlim.1 ≤ recN r ∧ recN r ≤ nlim.2 ∧ zlim.1 ≤ r.Z ∧ r.Z ≤ zlim.2) ∧
    (∃ r ∈ data, recN r = nlim.1) ∧ (∃ r ∈ data, recN r = nlim.2) ∧
    (∃ r ∈ data, r.Z = zlim.1) ∧ (∃ r ∈ data, r.Z = zlim.2) ∧
    canvasSize nlim zlim =
      ((nlim.2 - nlim.1 + 2) * SIZE_FIELD + SIZE_GAP,
       (zlim.2 - zlim.1 + 2) * SIZE_FIELD + SIZE_GAP) := by
  obtain ⟨nl1, nl2⟩ := nlim
  obtain ⟨zl1, zl2⟩ := zlim
  have hload0 := hload
  rw [load_xml_nuclear_table, loadLoop_eq] at hload
  simp only [List.reverse_nil, List.nil_append] at hload
  injection hload with hd hrest
  injection hrest with hn hz
  injection hn with hn1 hn2
  injection hz with hz1 hz2
  have hmemw : ∀ r ∈ recs.filter (inWindow nr zr),
      nr.1 ≤ recN r ∧ recN r ≤ nr.2 ∧ zr.1 ≤ r.Z ∧ r.Z ≤ zr.2 := by
    intro r hr
    have := (List.mem_filter.mp hr).2
    simpa [inWindow] using this
  obtain ⟨x0, hx0⟩ := List.exists_mem_of_ne_nil _ hne
  obtain ⟨hminle, hminb, hminat⟩ := foldl_minP recN (recs.filter (inWindow nr zr)) nr.2
  obtain ⟨hmaxge, hmaxb, hmaxat⟩ := foldl_maxP recN (recs.filter (inWindow nr zr)) nr.1
  obtain ⟨hzminle, hzminb, hzminat⟩ :=
    foldl_minP (fun r : RawRecord => r.Z) (recs.filter (inWindow nr zr)) zr.2
  obtain ⟨hzmaxge, hzmaxb, hzmaxat⟩ :=
    foldl_maxP (fun r : RawRecord => r.Z) (recs.filter (inWindow nr zr)) zr.1
  subst hd
  subst hn1
  subst hn2
  subst hz1
  subst hz2
  refine ⟨?_, rfl, ?_, ?_, ?_, ?_, ?_, rfl⟩
  · intro l1 bad l2 hsplit hbad
    have hfeq : (l1 ++ l2).filter (inWindow nr zr) =
        recs.filter (inWindow nr zr) := by
      rw [hsplit]
      simp [List.filter_append, List.filter_cons, hbad]
    rw [load_xml_nuclear_table, loadLoop_eq, hfeq]
    rw [load_xml_nuclear_table, loadLoop_eq] at hload0
    simp only [List.reverse_nil, List.nil_append] at hload0 ⊢
  · intro r hr
    exact ⟨hminle r hr, hmaxge r hr, hzminle r hr, hzmaxge r hr⟩
  · rcases hminat with he | ⟨y, hy, he⟩
    · refine ⟨x0, hx0, le_antisymm ?_ (hminle x0 hx0)⟩
      rw [he]
      exact (hmemw x0 hx0).2.1
    · exact ⟨y, hy, he.symm⟩
  · rcases hmaxat with he | ⟨y, hy, he⟩
    · refine ⟨x0, hx0, le_antisymm (hmaxge x0 hx0) ?_⟩
      rw [he]
      exact (hmemw x0 hx0).1
    · exact ⟨y, hy, he.symm⟩
  · rcases hzminat with he | ⟨y, hy, he⟩
    · refine ⟨x0, hx0, le_antisymm ?_ (hzminle x0 hx0)⟩
      rw [he]
      exact (hmemw x0 hx0).2.2.2
    · exact ⟨y, hy, he.symm⟩
  · rcases hzmaxat with he | ⟨y, hy, he⟩
    · refine ⟨x0, hx0, le_antisymm (hzmaxge x0 hx0) ?_⟩
      rw [he]
      exact (hmemw x0 hx0).2.2.1
    · exact ⟨y, hy, he.symm⟩

/-- Witness for claim C5: with the window N in 0..5 and Z in 0..5, the record
(A 13, Z 10) at N 3, Z 10 is excluded from the retained set and from the
extrema, and the canvas formula holds for the resulting tight limits. -/
theorem claim_C5_witness :
    load_xml_nuclear_table (0, 5) (0, 5) ([⟨3, 1⟩] ++ []) =
      ([⟨3, 1⟩], (2, 2), (1, 1)) ∧
    ([⟨3, 1⟩] : List RawRecord) =
      ([⟨3, 1⟩, ⟨13, 10⟩] : List RawRecord).filter (inWindow (0, 5) (0, 5)) ∧
    (∃ r ∈ ([⟨3, 1⟩] : List RawRecord), recN r = 2) ∧
    canvasSize (2, 2) (1, 1) =
      ((2 - 2 + 2) * SIZE_FIELD + SIZE_GAP, (1 - 1 + 2) * SIZE_FIELD + SIZE_GAP) := by
  have h := claim_C5 (0, 5) (0, 5) [⟨3, 1⟩, ⟨13, 10⟩] [⟨3, 1⟩] (2, 2) (1, 1)
    (by decide) (by decide)
  exact ⟨h.1 [⟨3, 1⟩] ⟨13, 10⟩ [] rfl (by decide), h.2.1, h.2.2.2.1,
    h.2.2.2.2.2.2.2⟩

lemma magicStep_other (key val m : Int) (st : Int → Option (Int × Int))
    (h : ¬(m = key)) : magicStep key val st m = st m := by
  unfold magicStep
  by_cases hk : key ∈ MAGIC_NUMBERS
  · rw [if_pos hk]
    cases hsk : st key with
    | none => simp [h]
    | some lim =>
      by_cases hv : lim.2 < val
      · simp [hv, h]
      · simp [hv]
  · rw [if_neg hk]

lemma magicStep_self (key val : Int) (st : Int → Option (Int × Int))
    (hk : key ∈ MAGIC_NUMBERS) :
    magicStep key val st key =
      (match st key with
       | none => some (val, val)
       | some lim => if lim.2 < val then some (lim.1, val) else some lim) := by
  unfold magicStep
  rw [if_pos hk]
  cases hsk : st key with
  | none => simp [hsk]
  | some lim =>
    by_cases hv : lim.2 < val
    · simp [hsk, hv]
    · simp [hsk, hv]

lemma magicFold_go (m : Int) (hm : m ∈ MAGIC_NUMBERS) :
    ∀ (kv : List (Int × Int)) (st : Int → Option (Int × Int)),
      (st m = none →
        List.foldl (fun s p => magicStep p.1 p.2 s) st kv m =
          (match (kv.filter (fun p => decide (p.1 = m))).map Prod.snd with
           | [] => none
           | v :: vs =>
             some (v, vs.foldl (fun a w => if a < w then w else a) v))) ∧
      (∀ lo hi, st m = some (lo, hi) →
        List.foldl (fun s p => magicStep p.1 p.2 s) st kv m =
          some (lo, ((kv.filter (fun p => decide (p.1 = m))).map Prod.snd).foldl
                  (fun a w => if a < w then w else a) hi)) := by
  intro kv
  induction kv with
  | nil =>
    intro st
    constructor
    · intro h0
      simpa using h0
    · intro lo hi h0
      simpa using h0
  | cons p ps ih =>
    intro st
    by_cases hp : p.1 = m
    · constructor
      · intro h0
        have hst' : magicStep p.1 p.2 st m = some (p.2, p.2) := by
          rw [hp, magicStep_self m p.2 st hm, h0]
        have hrec := (ih (magicStep p.1 p.2 st)).2 p.2 p.2 hst'
        simp only [List.foldl_cons]
        rw [hrec]
        simp [List.filter_cons, hp]
      · intro lo hi h0
        have hst' : magicStep p.1 p.2 st m =
            some (lo, if hi < p.2 then p.2 else hi) := by
          rw [hp, magicStep_self m p.2 st hm, h0]
          by_cases hv : hi < p.2 <;> simp [hv]
        have hrec := (ih (magicStep p.1 p.2 st)).2 lo _ hst'
        simp only [List.foldl_cons]
        rw [hrec]
        simp [List.filter_cons, hp]
    · constructor
      · intro h0
        have hst' : magicStep p.1 p.2 st m = none := by
          rw [magicStep_other p.1 p.2 m st (fun he => hp he.symm), h0]
        have hrec := (ih (magicStep p.1 p.2 st)).1 hst'
        simp only [List.foldl_cons]
        rw [hrec]
        simp [List.filter_cons, hp]
      · intro lo hi h0
        have hst' : magicStep p.1 p.2 st m = some (lo, hi) := by
          rw [magicStep_other p.1 p.2 m st (fun he => hp he.symm), h0]
        have hrec := (ih (magicStep p.1 p.2 st)).2 lo hi hst'
        simp only [List.foldl_cons]
        rw [hrec]
        simp [List.filter_cons, hp]

lemma foldl_maxM (l : List Int) : ∀ b : Int,
    (∀ x ∈ l, x ≤ List.foldl (fun a w => if a < w then w else a) b l) ∧
    b ≤ List.foldl (fun a w => if a < w then w else a) b l ∧
    (List.foldl (fun a w => if a < w then w else a) b l = b ∨
     List.foldl (fun a w => if a < w then w else a) b l ∈ l) := by
  induction l with
  | nil => intro b; exact ⟨by simp, le_refl b, Or.inl rfl⟩
  | cons x xs ih =>
    intro b
    obtain ⟨h1, h2, h3⟩ := ih (if b < x then x else b)
    simp only [List.foldl_cons]
    have hfx : x ≤ (if b < x then x else b) := by split <;> omega
    have hfb : b ≤ (if b < x then x else b) := by split <;> omega
    refine ⟨?_, le_trans hfb h2, ?_⟩
    · intro y hy
      rcases List.mem_cons.mp hy with h | h
      · rw [h]; exact le_trans hfx h2
      · exact h1 y h
    · rcases h3 with he | hm
      · by_cases hxb : b < x
        · right
          rw [he, if_pos hxb]
          exact List.mem_cons_self x xs
        · left
          rw [he, if_neg hxb]
      · right
        exact List.mem_cons_of_mem x hm

lemma magic_aggregate_spec (f g : RawRecord → Int) (data : List RawRecord) (m : Int)
    (hm : m ∈ MAGIC_NUMBERS) (r0 : RawRecord) (rest : List RawRecord)
    (hfilter : data.filter (fun r => decide (f r = m)) = r0 :: rest) :
    ∃ hi, magicFold (data.map (fun r => (f r, g r))) m = some (g r0, hi) ∧
      (∀ r ∈ r0 :: rest, g r ≤ hi) ∧ (∃ r ∈ r0 :: rest, g r = hi) := by
  have hkv : (data.map (fun r => (f r, g r))).filter (fun p => decide (p.1 = m)) =
      (r0 :: rest).map (fun r => (f r, g r)) := by
    rw [List.filter_map]
    rw [show ((fun p : Int × Int => decide (p.1 = m)) ∘ (fun r => (f r, g r))) =
        fun r => decide (f r = m) from rfl]
    rw [hfilter]
  have hgo := (magicFold_go m hm (data.map (fun r => (f r, g r)))
    (fun _ => none)).1 rfl
  rw [hkv] at hgo
  simp only [List.map_cons, List.map_map] at hgo
  rw [show ((Prod.snd ∘ fun r : RawRecord => (f r, g r)) : RawRecord → Int) = g
    from rfl] at hgo
  obtain ⟨hmax1, hmax2, hmax3⟩ := foldl_maxM (rest.map g) (g r0)
  refine ⟨(rest.map g).foldl (fun a w => if a < w then w else a) (g r0), ?_, ?_, ?_⟩
  · exact hgo
  · intro r hr
    rcases List.mem_cons.mp hr with h | h
    · rw [h]; exact hmax2
    · exact hmax1 (g r) (List.mem_map_of_mem g h)
  · rcases hmax3 with he | hmem
    · exact ⟨r0, List.mem_cons_self r0 rest, he.symm⟩
    · obtain ⟨r, hr, he⟩ := List.mem_map.mp hmem
      exact ⟨r, List.mem_cons_of_mem r0 hr, he⟩

/-- Claim C6 counterexample: the aggregate lower bound is not the minimum.
Records (A 7, Z 5) and (A 5, Z 3) both have the magic neutron number 2; the
minimum Z is 3 and the maximum is 5, but the aggregate holds (5, 5) because
the ingestion loop never lowers the stored lower bound after the first record,
so with this arrival order the claimed value (3, 5) is not produced. -/
theorem claim_C6_cex :
    n_magic [⟨7, 5⟩, ⟨5, 3⟩] 2 = some (5, 5) ∧
    n_magic [⟨7, 5⟩, ⟨5, 3⟩] 2 ≠ some (3, 5) ∧
    (∀ r ∈ ([⟨7, 5⟩, ⟨5, 3⟩] : List RawRecord), recN r = 2) ∧
    (∃ r ∈ ([⟨7, 5⟩, ⟨5, 3⟩] : List RawRecord), r.Z = 3) ∧
    (∀ r ∈ ([⟨7, 5⟩, ⟨5, 3⟩] : List RawRecord), (3 : Int) ≤ r.Z) := by
  refine ⟨by decide, by decide, by decide, by decide, by decide⟩

/-- Claim C6 amended: for each magic N with at least one retained isotope, the
aggregate holds the Z of the FIRST retained isotope with that N as lower bound
(not the minimum: the order of arrival matters) and the maximum Z over all of
them as upper bound; symmetrically for each magic Z with N. -/
theorem claim_C6_amended :
    (∀ (data : List RawRecord) (m : Int), m ∈ MAGIC_NUMBERS →
       ∀ (r0 : RawRecord) (rest : List RawRecord),
         data.filter (fun r => decide (recN r = m)) = r0 :: rest →
         ∃ hi, n_magic data m = some (r0.Z, hi) ∧
           (∀ r ∈ r0 :: rest, r.Z ≤ hi) ∧ (∃ r ∈ r0 :: rest, r.Z = hi)) ∧
    (∀ (data : List RawRecord) (m : Int), m ∈ MAGIC_NUMBERS →
       ∀ (r0 : RawRecord) (rest : List RawRecord),
         data.filter (fun r => decide (r.Z = m)) = r0 :: rest →
         ∃ hi, z_magic data m = some (recN r0, hi) ∧
           (∀ r ∈ r0 :: rest, recN r ≤ hi) ∧ (∃ r ∈ r0 :: rest, recN r = hi)) :=
  ⟨fun data m hm r0 rest hfilter =>
     magic_aggregate_spec recN (fun r => r.Z) data m hm r0 rest hfilter,
   fun data m hm r0 rest hfilter =>
     magic_aggregate_spec (fun r => r.Z) recN data m hm r0 rest hfilter⟩

/-- Witness for the amended claim C6, on the counterexample data for the
N side and on two Z = 8 records for the Z side. -/
theorem claim_C6_witness :
    (∃ hi, n_magic [⟨7, 5⟩, ⟨5, 3⟩] 2 = some ((5 : Int), hi) ∧
       (∀ r ∈ ([⟨7, 5⟩, ⟨5, 3⟩] : List RawRecord), r.Z ≤ hi) ∧
       (∃ r ∈ ([⟨7, 5⟩, ⟨5, 3⟩] : List RawRecord), r.Z = hi)) ∧
    (∃ hi, z_magic [⟨10, 8⟩, ⟨12, 8⟩] 8 = some ((2 : Int), hi) ∧
       (∀ r ∈ ([⟨10, 8⟩, ⟨12, 8⟩] : List RawRecord), recN r ≤ hi) ∧
       (∃ r ∈ ([⟨10, 8⟩, ⟨12, 8⟩] : List RawRecord), recN r = hi)) :=
  ⟨claim_C6_amended.1 [⟨7, 5⟩, ⟨5, 3⟩] 2 (by decide) ⟨7, 5⟩ [⟨5, 3⟩] (by decide),
   claim_C6_amended.2 [⟨10, 8⟩, ⟨12, 8⟩] 8 (by decide) ⟨10, 8⟩ [⟨12, 8⟩] (by decide)⟩

end ChartDrawer
